import Mathlib

/-!
Verification development for the Complinist-OS document-chunking engine
(`scripts/chunking/chunker.py`, `scripts/chunking/metadata_enhancer.py`,
`scripts/chunking/token_utils.py`).

The per-document pipeline is embedded as executable Lean definitions.
External collaborators of the engine are modelled as function parameters:

* the token counter (the external `tiktoken` library) is a parameter
  `count : String → Nat`;
* the recursive splitter (the external LangChain
  `RecursiveCharacterTextSplitter`) is a parameter
  `split : Nat → Nat → String → List String` taking chunk size, overlap
  and the text;
* the regular-expression engine (Python's `re` library, used by
  `_extract_key_terms` with two fixed patterns) is a parameter of type
  `ReEngine`.

Python dictionaries carrying chunk metadata are embedded as association
lists with first-match lookup and replace-or-append update, which agrees
with `dict` semantics because the code never creates duplicate keys.
-/

/-- Metadata values: the scalar/list payloads the chunker stores in chunk
metadata dictionaries (strings, integers as `Nat`, booleans, string lists). -/
inductive Value where
  | str (s : String)
  | nat (n : Nat)
  | bool (b : Bool)
  | listStr (l : List String)
deriving DecidableEq

/-- Python truthiness of a metadata value (`if metadata.get(k):`). -/
def Value.truthy : Value → Bool
  | .str s => !(s == "")
  | .nat n => !(n == 0)
  | .bool b => b
  | .listStr l => !l.isEmpty

/-- Rendering of a metadata value inside an f-string (`f"... {v} ..."`). -/
def Value.pyStr : Value → String
  | .str s => s
  | .nat n => toString n
  | .bool b => if b then "True" else "False"
  | .listStr l => "[" ++ String.intercalate ", " (l.map (fun s => "\x27" ++ s ++ "\x27")) ++ "]"

/-- Metadata dictionaries of the chunker, as ordered association lists. -/
abbrev Metadata := List (String × Value)

/-- Dictionary lookup `metadata.get(k)`: first entry with the given key. -/
def Metadata.get? : Metadata → String → Option Value
  | [], _ => none
  | p :: rest, k => if p.1 = k then some p.2 else Metadata.get? rest k

/-- Dictionary update `metadata[k] = v`: replace the first entry with the
given key in place, or append a new entry at the end. -/
def Metadata.set : Metadata → String → Value → Metadata
  | [], k, v => [(k, v)]
  | p :: rest, k, v => if p.1 = k then (k, v) :: rest else p :: Metadata.set rest k v

/-- Dictionary lookup with default, `metadata.get(k, d)`. -/
def Metadata.getD (m : Metadata) (k : String) (d : Value) : Value :=
  (m.get? k).getD d

/-- Truthiness of `metadata.get(k)` (absent keys are falsy, like `None`). -/
def Metadata.truthyAt (m : Metadata) (k : String) : Bool :=
  match m.get? k with
  | some v => v.truthy
  | none => false

/-- String rendering of `metadata.get(k, dflt)` for string-typed fields. -/
def Metadata.getStrD (m : Metadata) (k : String) (dflt : String) : String :=
  match m.get? k with
  | some v => v.pyStr
  | none => dflt

theorem Metadata.get?_set_self (m : Metadata) (k : String) (v : Value) :
    (m.set k v).get? k = some v := by
  induction m with
  | nil => simp [Metadata.set, Metadata.get?]
  | cons p rest ih =>
    by_cases h : p.1 = k
    · simp [Metadata.set, Metadata.get?, h]
    · simp [Metadata.set, Metadata.get?, h, ih]

theorem Metadata.get?_set_ne {k' k : String} (h : k' ≠ k) (m : Metadata) (v : Value) :
    (m.set k' v).get? k = m.get? k := by
  induction m with
  | nil => simp [Metadata.set, Metadata.get?, h]
  | cons p rest ih =>
    by_cases hp : p.1 = k'
    · have hpk : ¬ p.1 = k := by rw [hp]; exact h
      simp [Metadata.set, Metadata.get?, hp, hpk, h]
    · have h' : ¬ k = k' := fun hh => h hh.symm
      by_cases hk : p.1 = k
      · simp [Metadata.set, Metadata.get?, hp, hk, h']
      · simp [Metadata.set, Metadata.get?, hp, hk, h', ih]

/-- Chunks emitted by the pipeline: `{'text': ..., 'metadata': ...}`. -/
structure Chunk where
  text : String
  metadata : Metadata
deriving DecidableEq

/-- Helper for the substring test: does `needle` occur as a contiguous
block inside the haystack character list? -/
def charsContain (needle : List Char) : List Char → Bool
  | [] => needle.isEmpty
  | c :: rest => needle.isPrefixOf (c :: rest) || charsContain needle rest

/-- Python substring test `sub in s` on strings (character-wise infix). -/
def strContains (s sub : String) : Bool :=
  charsContain sub.data s.data

/-- Python `str.lower()` (the engine only lowercases ASCII names). -/
def strLower (s : String) : String :=
  ⟨s.data.map Char.toLower⟩

/-- Python `str.strip()`: drop leading and trailing whitespace. -/
def strStrip (s : String) : String :=
  ⟨((s.data.dropWhile Char.isWhitespace).reverse.dropWhile Char.isWhitespace).reverse⟩

/-- Helper for Python `str.split(sep)` over the character list. -/
def splitOnCharAux (sep : Char) : List Char → List Char → List String
  | [], cur => [⟨cur.reverse⟩]
  | c :: rest, cur =>
    if c = sep then ⟨cur.reverse⟩ :: splitOnCharAux sep rest []
    else splitOnCharAux sep rest (c :: cur)

/-- Python `str.split(sep)` for a one-character separator. -/
def strSplitOn (s : String) (sep : Char) : List String :=
  splitOnCharAux sep s.data []

/-- Embedding of `calculate_adaptive_overlap` (token_utils.py, lines 71-90)
with the default `overlap_ratio = 0.2`.  The floating-point expression
`int(chunk_size_tokens * 0.2)` truncates the IEEE double product toward
zero, which for the chunk sizes the engine can represent exactly equals
`chunk_size_tokens * 2 / 10` in natural-number division. -/
def calculate_adaptive_overlap (chunk_size_tokens : Nat) : Nat :=
  let overlap := max 20 (chunk_size_tokens * 2 / 10)
  let max_overlap := chunk_size_tokens / 2
  min overlap max_overlap

/-- Per-document-type chunking configuration (the value shape of
`CHUNKING_CONFIG`); absent dictionary keys are represented by the same
defaults `chunk_text` supplies via `config.get`. -/
structure ChunkingConfig where
  chunk_size_tokens : Nat
  chunk_overlap_tokens : Nat
  one_per_control : Bool
  use_small2big : Bool
  small_chunk_size : Nat
deriving DecidableEq

/-- Embedding of the `CHUNKING_CONFIG` table together with the
`get_chunking_config` lookup (chunker.py, lines 36-139 and 194-196):
unknown tags resolve to the `default` entry. -/
def get_chunking_config (document_type : String) : ChunkingConfig :=
  if document_type = "800-53_catalog" then ⟨384, 77, true, true, 256⟩
  else if document_type = "800-53a_assessment" then ⟨384, 77, true, true, 256⟩
  else if document_type = "800-53_xml" then ⟨384, 77, true, true, 256⟩
  else if document_type = "800-37_rmf" then ⟨400, 80, false, true, 256⟩
  else if document_type = "csf_2.0" then ⟨400, 80, false, true, 256⟩
  else if document_type = "800-171" then ⟨384, 77, true, true, 256⟩
  else if document_type = "fedramp" then ⟨384, 77, true, true, 256⟩
  else if document_type = "dod_srg" then ⟨450, 90, false, true, 300⟩
  else if document_type = "cmmc" then ⟨384, 77, false, true, 256⟩
  else if document_type = "security_pattern" then ⟨450, 90, false, true, 300⟩
  else if document_type = "positioning_guide" then ⟨450, 90, false, true, 300⟩
  else if document_type = "zone_guide" then ⟨450, 90, false, true, 300⟩
  else if document_type = "grouping_guide" then ⟨450, 90, false, true, 300⟩
  else if document_type = "segmentation_guide" then ⟨450, 90, false, true, 300⟩
  else if document_type = "query_patterns" then ⟨300, 60, false, false, 256⟩
  else ⟨512, 102, false, true, 256⟩

/-- Embedding of the first filename-rule block of `detect_document_type`
(chunker.py, lines 146-163); `none` means the block fell through. -/
def detectFilenamePrimary (filename : String) (metadata : Metadata) : Option String :=
  let fl := strLower filename
  if strContains fl "800-53" && decide (metadata.get? "file_type" = some (Value.str "xml")) then
    some "800-53_xml"
  else if strContains fl "800-53" && strContains fl "catalog" then some "800-53_catalog"
  else if strContains fl "800-53a" || strContains fl "assessment" then some "800-53a_assessment"
  else if strContains fl "800-37" || strContains fl "rmf" then some "800-37_rmf"
  else if strContains fl "csf" || strContains fl "cybersecurity framework" then some "csf_2.0"
  else if strContains fl "800-171" then some "800-171"
  else if strContains fl "fedramp" then some "fedramp"
  else if strContains fl "cmmc" then some "cmmc"
  else if strContains fl "srg" || strContains fl "dod" then some "dod_srg"
  else none

/-- Embedding of the metadata block of `detect_document_type` (chunker.py,
lines 165-176): an explicit `document_type` in the side metadata is
recognized for exactly six values. -/
def detectMetadataType (metadata : Metadata) : Option String :=
  if metadata.get? "document_type" = some (Value.str "800-53_xml") then some "800-53_xml"
  else if metadata.get? "document_type" = some (Value.str "security_pattern") then
    some "security_pattern"
  else if metadata.get? "document_type" = some (Value.str "positioning_guide") then
    some "positioning_guide"
  else if metadata.get? "document_type" = some (Value.str "zone_guide") then some "zone_guide"
  else if metadata.get? "document_type" = some (Value.str "grouping_guide") then
    some "grouping_guide"
  else if metadata.get? "document_type" = some (Value.str "segmentation_guide") then
    some "segmentation_guide"
  else none

/-- Embedding of the filename keyword fallback block of
`detect_document_type` (chunker.py, lines 178-189). -/
def detectFilenameKeyword (filename : String) : Option String :=
  let fl := strLower filename
  if strContains fl "security_pattern" then some "security_pattern"
  else if strContains fl "positioning" then some "positioning_guide"
  else if strContains fl "zone" then some "zone_guide"
  else if strContains fl "grouping" then some "grouping_guide"
  else if strContains fl "segmentation" then some "segmentation_guide"
  else if strContains fl "query_pattern" || strContains fl "greeting" then some "query_patterns"
  else none

/-- Embedding of `detect_document_type` (chunker.py, lines 142-191): the
three early-return blocks chained in source order, then `'default'`. -/
def detect_document_type (filename : String) (metadata : Metadata) : String :=
  (((detectFilenamePrimary filename metadata).orElse
      (fun _ => detectMetadataType metadata)).orElse
      (fun _ => detectFilenameKeyword filename)).getD "default"

/-- Embedding of the `DOCUMENT_LABELS` table (chunker.py, lines 204-221). -/
def DOCUMENT_LABELS (document_type : String) : Option String :=
  if document_type = "800-53_catalog" then some "NIST SP 800-53 Rev. 5 Control Catalog"
  else if document_type = "800-53_xml" then
    some "NIST SP 800-53 Rev. 5 Control Catalog (XML)"
  else if document_type = "800-53a_assessment" then
    some "NIST SP 800-53A Rev. 5 Assessment Procedures"
  else if document_type = "800-37_rmf" then some "NIST SP 800-37 Rev. 2 RMF Lifecycle"
  else if document_type = "csf_2.0" then some "NIST Cybersecurity Framework 2.0"
  else if document_type = "800-171" then some "NIST SP 800-171 Rev. 3 (CUI Requirements)"
  else if document_type = "fedramp" then some "FedRAMP Security Baseline"
  else if document_type = "dod_srg" then some "DoD Cloud SRG (IL2-IL6)"
  else if document_type = "cmmc" then
    some "CMMC (Cybersecurity Maturity Model Certification)"
  else if document_type = "security_pattern" then some "Security Pattern Documentation"
  else if document_type = "positioning_guide" then some "Device Positioning Best Practices"
  else if document_type = "zone_guide" then some "Security Zone Relationships"
  else if document_type = "grouping_guide" then some "Device Grouping Patterns"
  else if document_type = "segmentation_guide" then some "Network Segmentation Strategies"
  else if document_type = "query_patterns" then some "Query Patterns and Common Greetings"
  else if document_type = "default" then some "Source Document"
  else none

/-- Python truthiness check on a string used by `_build_context_prefix` and
`prepend_context` (`if label:` / `if context_prefix:`). -/
def String.truthy (s : String) : Bool :=
  !(s == "")

/-- Embedding of `_build_context_prefix` (chunker.py, lines 224-265): the
pipe-separated context label assembled from the metadata fields, in source
order, skipping absent or falsy fields. -/
def build_context_label (metadata : Metadata) (document_type : String) : String :=
  let parts : List String :=
    (match DOCUMENT_LABELS document_type with
     | some label => if label.truthy then [label] else []
     | none => [])
    ++ (if metadata.truthyAt "section_heading" then
          ["Section: " ++ (metadata.getD "section_heading" (Value.str "")).pyStr] else [])
    ++ (if metadata.truthyAt "control_id" then
          [(let cp := "Control " ++ (metadata.getD "control_id" (Value.str "")).pyStr
            let cp := if metadata.truthyAt "control_name" then
                cp ++ " - " ++ (metadata.getD "control_name" (Value.str "")).pyStr else cp
            let cp := if metadata.truthyAt "family" then
                cp ++ " (Family " ++ (metadata.getD "family" (Value.str "")).pyStr ++ ")" else cp
            if metadata.truthyAt "enhancement_number" then
              cp ++ " Enhancement " ++ (metadata.getD "enhancement_number" (Value.str "")).pyStr
            else cp)]
        else [])
    ++ (if metadata.truthyAt "task_id" then
          ["Task: " ++ (metadata.getD "task_id" (Value.str "")).pyStr] else [])
    ++ (if metadata.truthyAt "step" then
          ["Step: " ++ (metadata.getD "step" (Value.str "")).pyStr] else [])
    ++ (if metadata.truthyAt "function" then
          ["Function: " ++ (metadata.getD "function" (Value.str "")).pyStr] else [])
    ++ (if metadata.truthyAt "category" then
          ["Category: " ++ (metadata.getD "category" (Value.str "")).pyStr] else [])
    ++ (if metadata.truthyAt "impact_level" then
          ["Impact Level: " ++ (metadata.getD "impact_level" (Value.str "")).pyStr] else [])
    ++ (if metadata.truthyAt "baseline_level" then
          ["Baseline: " ++ (metadata.getD "baseline_level" (Value.str "")).pyStr] else [])
    ++ (if metadata.truthyAt "page" then
          ["Page " ++ (metadata.getD "page" (Value.str "")).pyStr] else [])
    ++ (if metadata.truthyAt "sheet" then
          ["Sheet: " ++ (metadata.getD "sheet" (Value.str "")).pyStr] else [])
  String.intercalate " | " parts

/-- Embedding of the local function `prepend_context` inside `chunk_text`
(chunker.py, lines 287-291): strip the content, return it unchanged when
empty, otherwise prepend the context label and a blank line when the label
is non-empty. -/
def prependContext (ctx : String) (content : String) : String :=
  let c := strStrip content
  if c = "" then c
  else if ctx ≠ "" then ctx ++ "\n\n" ++ c
  else c

/-- Regular-expression engine used by `_extract_key_terms`
(metadata_enhancer.py, lines 221-226): Python's external `re` library,
modelled as two abstract match-extraction functions, one per fixed
pattern (capitalized multi-word phrases, and 2-6 letter acronyms). -/
structure ReEngine where
  findallCapitalized : String → List String
  findallAcronyms : String → List String

/-- Helper for order-preserving deduplication: accumulator of seen items. -/
def dedupFirstAux : List String → List String → List String
  | [], _ => []
  | a :: l, seen =>
    if a ∈ seen then dedupFirstAux l seen
    else a :: dedupFirstAux l (a :: seen)

/-- Embedding of `list(dict.fromkeys(questions))` (metadata_enhancer.py,
line 48): deduplication keeping the first occurrence, preserving order. -/
def dedupFirst (l : List String) : List String :=
  dedupFirstAux l []

/-- The fixed architecture/security term vocabulary of `_extract_key_terms`
(metadata_enhancer.py, lines 208-213). -/
def patternTerms : List String :=
  ["zero trust", "dmz", "defense in depth", "segmentation",
   "micro-segmentation", "network isolation", "perimeter security",
   "firewall", "intrusion detection", "intrusion prevention",
   "load balancer", "proxy", "gateway"]

/-- Embedding of `_extract_key_terms` (metadata_enhancer.py, lines
203-228): vocabulary terms found in the lowercased text (when
`pattern_type`), then up to 3 capitalized phrases and up to 3 acronyms
from the regex engine, capped at 5 terms. -/
def extract_key_terms (eng : ReEngine) (text : String) (patternType : Bool) : List String :=
  let terms : List String :=
    if patternType then patternTerms.filter (fun t => strContains (strLower text) t)
    else []
  let terms := terms ++ (eng.findallCapitalized text).take 3
  let terms := terms ++ (eng.findallAcronyms text).take 3
  terms.take 5

/-- Embedding of `_generate_control_questions` (metadata_enhancer.py,
lines 52-85): templated questions from control id, name, family,
enhancement number, assessment-flavored phrasing, and keyword triggers. -/
def generate_control_questions (text : String) (metadata : Metadata) : List String :=
  let control_id := metadata.getD "control_id" (Value.str "")
  let control_name := metadata.getD "control_name" (Value.str "")
  let family := metadata.getD "family" (Value.str "")
  let enhancement_number := metadata.getD "enhancement_number" (Value.str "")
  (if control_id.truthy then
    ["What is the purpose of control " ++ control_id.pyStr ++ "?",
     "What are the requirements for " ++ control_id.pyStr ++ "?"]
    ++ (if control_name.truthy then
          ["How do I implement " ++ control_name.pyStr ++ "?",
           "What does " ++ control_name.pyStr ++ " require?"] else [])
    ++ (if enhancement_number.truthy then
          ["What does enhancement " ++ enhancement_number.pyStr ++ " of "
             ++ control_id.pyStr ++ " add?"] else [])
    ++ (if strContains (strLower (metadata.getStrD "source" "")) "assessment" then
          ["How do you assess " ++ control_id.pyStr ++ "?",
           "What are the assessment procedures for " ++ control_id.pyStr ++ "?"] else [])
   else [])
  ++ (if family.truthy then
        ["What are the " ++ family.pyStr ++ " family requirements?"] else [])
  ++ (if strContains (strLower text) "baseline" then
        ["What baseline applies to "
           ++ (if control_id.truthy then control_id.pyStr else "this control") ++ "?"]
      else [])
  ++ (if strContains (strLower text) "shall" || strContains (strLower text) "must"
        || strContains (strLower text) "required" then
        ["What are the mandatory requirements for "
           ++ (if control_id.truthy then control_id.pyStr else "this") ++ "?"]
      else [])

/-- Embedding of `_generate_pattern_questions` (metadata_enhancer.py,
lines 88-124). -/
def generate_pattern_questions (eng : ReEngine) (text : String) (_metadata : Metadata)
    (document_type : String) : List String :=
  let pattern_keywords := extract_key_terms eng text true
  if document_type = "security_pattern" then
    ((pattern_keywords.take 2).map (fun keyword =>
        ["How do I implement " ++ keyword ++ "?",
         "What are the best practices for " ++ keyword ++ "?"])).flatten
    ++ ["What security patterns should I use?"]
    ++ (if strContains (strLower text) "zero trust" then
          ["How do I implement zero trust architecture?"] else [])
    ++ (if strContains (strLower text) "dmz" then
          ["How should I configure my DMZ?"] else [])
  else if document_type = "positioning_guide" then
    ["Where should I position security devices?",
     "What are the best practices for device placement?"]
  else if document_type = "zone_guide" then
    ["How should I segment network zones?",
     "What are the security zone requirements?"]
  else if document_type = "grouping_guide" then
    ["How should I group devices?",
     "What are device grouping best practices?"]
  else if document_type = "segmentation_guide" then
    ["How do I segment my network?",
     "What are network segmentation strategies?"]
  else []

/-- Embedding of `_generate_framework_questions` (metadata_enhancer.py,
lines 127-158). -/
def generate_framework_questions (_text : String) (metadata : Metadata)
    (document_type : String) : List String :=
  if document_type = "800-37_rmf" then
    let task_id := metadata.getD "task_id" (Value.str "")
    let step := metadata.getD "step" (Value.str "")
    (if task_id.truthy then
       ["What is task " ++ task_id.pyStr ++ " in the RMF?",
        "How do I complete task " ++ task_id.pyStr ++ "?"] else [])
    ++ (if step.truthy then
          ["What are the requirements for RMF step " ++ step.pyStr ++ "?"] else [])
    ++ ["What are the RMF steps?",
        "How do I implement the Risk Management Framework?"]
  else if document_type = "csf_2.0" then
    let function := metadata.getD "function" (Value.str "")
    let category := metadata.getD "category" (Value.str "")
    (if function.truthy then
       ["What is the " ++ function.pyStr ++ " function in the CSF?"] else [])
    ++ (if category.truthy then
          ["What are the " ++ category.pyStr ++ " requirements?"] else [])
    ++ ["What are the Cybersecurity Framework requirements?"]
  else []

/-- Embedding of `_generate_query_pattern_questions` (metadata_enhancer.py,
lines 161-172): reuse up to 3 question-mark separated questions from the
text verbatim, else two fixed meta-questions. -/
def generate_query_pattern_questions (text : String) (_metadata : Metadata) : List String :=
  if strContains text "?" then
    (((strSplitOn text '?').filter (fun q => (strStrip q).truthy)).map
        (fun q => strStrip q ++ "?")).take 3
  else
    ["What are common questions about compliance?",
     "What should I ask about security requirements?"]

/-- Embedding of `_generate_generic_questions` (metadata_enhancer.py,
lines 175-200). -/
def generate_generic_questions (eng : ReEngine) (text : String) (metadata : Metadata) :
    List String :=
  let key_terms := extract_key_terms eng text false
  (match key_terms with
   | [] => []
   | primary_term :: _ =>
     ["What is " ++ primary_term ++ "?",
      "How does " ++ primary_term ++ " work?",
      "What are the requirements for " ++ primary_term ++ "?"])
  ++ (if strContains (strLower text) "requirement" || strContains (strLower text) "must"
        || strContains (strLower text) "shall" then
        ["What are the requirements?"] else [])
  ++ (if strContains (strLower text) "implement" || strContains (strLower text) "deploy"
        || strContains (strLower text) "configure" then
        ["How do I implement this?"] else [])
  ++ (if strContains (strLower text) "assess" || strContains (strLower text) "evaluate" then
        ["How do I assess this?"] else [])
  ++ (if metadata.truthyAt "section_heading" then
        ["What is covered in " ++ (metadata.getD "section_heading" (Value.str "")).pyStr ++ "?"]
      else [])

/-- Document types routed to `_generate_control_questions`
(metadata_enhancer.py, lines 26-27). -/
def controlDocTypes : List String :=
  ["800-53_catalog", "800-53a_assessment", "800-171",
   "fedramp", "cmmc", "dod_srg", "cnssi_1253", "overlays"]

/-- Document types routed to `_generate_pattern_questions`
(metadata_enhancer.py, lines 31-32). -/
def patternDocTypes : List String :=
  ["security_pattern", "positioning_guide", "zone_guide",
   "grouping_guide", "segmentation_guide"]

/-- Document types routed to `_generate_framework_questions`
(metadata_enhancer.py, line 36). -/
def frameworkDocTypes : List String :=
  ["800-37_rmf", "csf_2.0"]

/-- Embedding of `generate_hypothetical_questions` (metadata_enhancer.py,
lines 12-49): per-family dispatch, then first-occurrence deduplication and
a cap of `max_questions` (call sites use the default 3). -/
def generate_hypothetical_questions (eng : ReEngine) (text : String) (metadata : Metadata)
    (document_type : String) (max_questions : Nat) : List String :=
  let questions :=
    if document_type ∈ controlDocTypes then generate_control_questions text metadata
    else if document_type ∈ patternDocTypes then
      generate_pattern_questions eng text metadata document_type
    else if document_type ∈ frameworkDocTypes then
      generate_framework_questions text metadata document_type
    else if document_type = "query_patterns" then
      generate_query_pattern_questions text metadata
    else generate_generic_questions eng text metadata
  (dedupFirst questions).take max_questions

/-- Embedding of `enhance_chunk_metadata` (metadata_enhancer.py, lines
231-258): when questions are generated, return a chunk with the same text
and a metadata copy extended with the three question fields; otherwise
return the chunk unchanged. -/
def enhance_chunk_metadata (eng : ReEngine) (chunk : Chunk) (document_type : String)
    (enable_questions : Bool) : Chunk :=
  if !enable_questions then chunk
  else
    let questions :=
      generate_hypothetical_questions eng chunk.text chunk.metadata document_type 3
    if questions.isEmpty then chunk
    else
      ⟨chunk.text,
       ((chunk.metadata.set "hypothetical_questions" (Value.listStr questions)).set
           "question_count" (Value.nat questions.length)).set
         "questions_text" (Value.str (String.intercalate " " questions))⟩

/-- Embedding of `batch_enhance_chunks` (metadata_enhancer.py, lines
261-271). -/
def batch_enhance_chunks (eng : ReEngine) (chunks : List Chunk) (document_type : String)
    (enable_questions : Bool) : List Chunk :=
  if !enable_questions then chunks
  else chunks.map (fun chunk => enhance_chunk_metadata eng chunk document_type enable_questions)

/-- Construction of one small (hierarchy) chunk inside `chunk_text`
(chunker.py, lines 356-373): the metadata dictionary literal
`{**chunk_metadata_base, 'chunk_index': ..., ..., 'parent_text': ...}`
rendered as successive key updates in source order, and the context label
prepended to the small chunk's own text only. -/
def mkSmall (count : String → Nat) (base : Metadata) (ctx : String)
    (cidx pi si : Nat) (pc sc : String) : Chunk :=
  ⟨prependContext ctx sc,
   ((((((((base.set "chunk_index" (Value.nat cidx)).set
       "parent_chunk_id" (Value.str ("parent_" ++ toString pi))).set
       "parent_chunk_index" (Value.nat pi)).set
       "small_chunk_index" (Value.nat si)).set
       "is_small_chunk" (Value.bool true)).set
       "token_count" (Value.nat (count sc))).set
       "parent_token_count" (Value.nat (count pc))).set
       "parent_text" (Value.str pc))⟩

/-- Construction of one directly-emitted parent chunk inside `chunk_text`
(chunker.py, lines 375-387). -/
def mkDirect (count : String → Nat) (base : Metadata) (ctx : String)
    (idx : Nat) (c : String) : Chunk :=
  ⟨prependContext ctx c,
   (((base.set "chunk_index" (Value.nat idx)).set
       "is_small_chunk" (Value.bool false)).set
       "token_count" (Value.nat (count c)))⟩

/-- Inner loop of the small-to-big branch of `chunk_text` (chunker.py,
lines 356-373): `for small_idx, small_chunk in enumerate(small_chunks)`
appending to the running `chunk_documents` list, with `chunk_index`
taken as the current length of that list. -/
def small2bigInner (count : String → Nat) (base : Metadata) (ctx : String)
    (pi : Nat) (pc : String) : List String → Nat → List Chunk → List Chunk
  | [], _, acc => acc
  | sc :: rest, si, acc =>
    small2bigInner count base ctx pi pc rest (si + 1)
      (acc ++ [mkSmall count base ctx acc.length pi si pc sc])

/-- Outer loop of the small-to-big branch of `chunk_text` (chunker.py,
lines 350-373): `for parent_idx, parent_chunk in enumerate(parent_chunks)`
re-splitting each parent with the small budget and overlap. -/
def small2bigOuter (split : Nat → Nat → String → List String) (count : String → Nat)
    (base : Metadata) (ctx : String) (smallSize smallOverlap : Nat) :
    List String → Nat → List Chunk → List Chunk
  | [], _, acc => acc
  | pc :: rest, pi, acc =>
    small2bigOuter split count base ctx smallSize smallOverlap rest (pi + 1)
      (small2bigInner count base ctx pi pc (split smallSize smallOverlap pc) 0 acc)

/-- Direct parent emission loop of `chunk_text` (chunker.py, lines
375-387): `for idx, chunk in enumerate(parent_chunks)`. -/
def directChunks (count : String → Nat) (base : Metadata) (ctx : String) :
    List String → Nat → List Chunk
  | [], _ => []
  | c :: rest, idx => mkDirect count base ctx idx c :: directChunks count base ctx rest (idx + 1)

/-- The single whole-text chunk of the suppress-split path of `chunk_text`
(chunker.py, lines 299-311). -/
def singleChunk (count : String → Nat) (ctx : String) (text : String)
    (metadata : Metadata) (document_type : String) : Chunk :=
  let m1 := (((metadata.set "chunk_index" (Value.nat 0)).set
      "document_type" (Value.str document_type)).set
      "token_count" (Value.nat (count text))).set
      "is_small_chunk" (Value.bool false)
  let m1 := if ctx.truthy then m1.set "context_prefix" (Value.str ctx) else m1
  ⟨prependContext ctx text, m1⟩

/-- The shared metadata base `chunk_metadata_base` of `chunk_text`
(chunker.py, lines 330-333). -/
def mkBase (metadata : Metadata) (document_type ctx : String) : Metadata :=
  let b := metadata.set "document_type" (Value.str document_type)
  if ctx.truthy then b.set "context_prefix" (Value.str ctx) else b

/-- The trailing enhancement step of every `chunk_text` path (chunker.py,
lines 313-314 and 389-390): `if enable_questions: batch_enhance_chunks(...)`. -/
def maybeEnhance (eng : ReEngine) (enableQ : Bool) (document_type : String)
    (chunks : List Chunk) : List Chunk :=
  if enableQ then batch_enhance_chunks eng chunks document_type true else chunks

/-- Embedding of `chunk_text` (chunker.py, lines 268-392), parameterized by
the external splitter, token counter and regex engine.  The three paths of
the source are reproduced: the suppress-split single chunk, the
small-to-big hierarchy (taken when the config enables it, the caller
enables it, and the parent split yields more than one span), and direct
parent emission. -/
def chunk_text (split : Nat → Nat → String → List String) (count : String → Nat)
    (eng : ReEngine) (text : String) (metadata : Metadata)
    (document_type : Option String) (enable_small2big enable_questions : Bool) :
    List Chunk :=
  let dt :=
    match document_type with
    | some d => d
    | none => detect_document_type (metadata.getStrD "source" "") metadata
  let config := get_chunking_config dt
  let ctx := build_context_label metadata dt
  if config.one_per_control = true ∧ count text ≤ config.chunk_size_tokens then
    maybeEnhance eng enable_questions dt [singleChunk count ctx text metadata dt]
  else
    let parent_chunks := split config.chunk_size_tokens config.chunk_overlap_tokens text
    let base := mkBase metadata dt ctx
    if (config.use_small2big && enable_small2big) = true ∧ 1 < parent_chunks.length then
      maybeEnhance eng enable_questions dt
        (small2bigOuter split count base ctx config.small_chunk_size
          (calculate_adaptive_overlap config.small_chunk_size) parent_chunks 0 [])
    else
      maybeEnhance eng enable_questions dt (directChunks count base ctx parent_chunks 0)

/-- Documents consumed by the batch orchestrator: `{'text', 'metadata'}`. -/
structure Doc where
  text : String
  metadata : Metadata
deriving DecidableEq

/-- Embedding of the parallel branch of `chunk_documents` (chunker.py,
lines 410-431).  The per-document pipeline is a parameter
`pipe : Doc → Except String (List Chunk)`: `Except.error` models the
pipeline raising an exception (caught by the `try/except` around
`future.result()`), `Except.ok` models normal completion.  The
nondeterministic completion order of `as_completed` is a parameter
`order`, a permutation of the future indices; for each completed future
the `try` block extends `all_chunks` with its chunks, and the `except`
block logs and continues. -/
def chunk_documents_parallel (pipe : Doc → Except String (List Chunk))
    (docs : List Doc) (order : List Nat) : List Chunk :=
  order.foldl (fun all_chunks i =>
    match docs.get? i with
    | some doc =>
      match pipe doc with
      | Except.ok chunks => all_chunks ++ chunks
      | Except.error _ => all_chunks
    | none => all_chunks) []

/-- Unfolded form of the small-to-big inner loop: the chunks produced for
one parent, with explicit starting global index and small index. -/
def innerSpec (count : String → Nat) (base : Metadata) (ctx : String)
    (pi : Nat) (pc : String) : List String → Nat → Nat → List Chunk
  | [], _, _ => []
  | sc :: rest, cidx, si =>
    mkSmall count base ctx cidx pi si pc sc :: innerSpec count base ctx pi pc rest (cidx + 1) (si + 1)

/-- Unfolded form of the small-to-big outer loop: concatenation of the
per-parent blocks, with the global index threaded through. -/
def outerSpec (split : Nat → Nat → String → List String) (count : String → Nat)
    (base : Metadata) (ctx : String) (smallSize smallOverlap : Nat) :
    List String → Nat → Nat → List Chunk
  | [], _, _ => []
  | pc :: rest, pi, cidx =>
    innerSpec count base ctx pi pc (split smallSize smallOverlap pc) cidx 0
      ++ outerSpec split count base ctx smallSize smallOverlap rest (pi + 1)
        (cidx + (split smallSize smallOverlap pc).length)

theorem innerSpec_length (count : String → Nat) (base : Metadata) (ctx : String)
    (pi : Nat) (pc : String) (smalls : List String) (cidx si : Nat) :
    (innerSpec count base ctx pi pc smalls cidx si).length = smalls.length := by
  induction smalls generalizing cidx si with
  | nil => rfl
  | cons sc rest ih => simp [innerSpec, ih]

theorem small2bigInner_eq (count : String → Nat) (base : Metadata) (ctx : String)
    (pi : Nat) (pc : String) (smalls : List String) (si : Nat) (acc : List Chunk) :
    small2bigInner count base ctx pi pc smalls si acc
      = acc ++ innerSpec count base ctx pi pc smalls acc.length si := by
  induction smalls generalizing si acc with
  | nil => simp [small2bigInner, innerSpec]
  | cons sc rest ih =>
    rw [small2bigInner, ih]
    simp [innerSpec]

theorem small2bigOuter_eq (split : Nat → Nat → String → List String) (count : String → Nat)
    (base : Metadata) (ctx : String) (smallSize smallOverlap : Nat)
    (parents : List String) (pi : Nat) (acc : List Chunk) :
    small2bigOuter split count base ctx smallSize smallOverlap parents pi acc
      = acc ++ outerSpec split count base ctx smallSize smallOverlap parents pi acc.length := by
  induction parents generalizing pi acc with
  | nil => simp [small2bigOuter, outerSpec]
  | cons pc rest ih =>
    rw [small2bigOuter, ih, small2bigInner_eq]
    simp [outerSpec, innerSpec_length]

theorem mkSmall_text (count : String → Nat) (base : Metadata) (ctx : String)
    (cidx pi si : Nat) (pc sc : String) :
    (mkSmall count base ctx cidx pi si pc sc).text = prependContext ctx sc := rfl

theorem mkSmall_chunk_index (count : String → Nat) (base : Metadata) (ctx : String)
    (cidx pi si : Nat) (pc sc : String) :
    (mkSmall count base ctx cidx pi si pc sc).metadata.get? "chunk_index"
      = some (Value.nat cidx) := by
  simp [mkSmall, Metadata.get?_set_ne, Metadata.get?_set_self]

theorem mkSmall_parent_chunk_index (count : String → Nat) (base : Metadata) (ctx : String)
    (cidx pi si : Nat) (pc sc : String) :
    (mkSmall count base ctx cidx pi si pc sc).metadata.get? "parent_chunk_index"
      = some (Value.nat pi) := by
  simp [mkSmall, Metadata.get?_set_ne, Metadata.get?_set_self]

theorem mkSmall_small_chunk_index (count : String → Nat) (base : Metadata) (ctx : String)
    (cidx pi si : Nat) (pc sc : String) :
    (mkSmall count base ctx cidx pi si pc sc).metadata.get? "small_chunk_index"
      = some (Value.nat si) := by
  simp [mkSmall, Metadata.get?_set_ne, Metadata.get?_set_self]

theorem mkSmall_token_count (count : String → Nat) (base : Metadata) (ctx : String)
    (cidx pi si : Nat) (pc sc : String) :
    (mkSmall count base ctx cidx pi si pc sc).metadata.get? "token_count"
      = some (Value.nat (count sc)) := by
  simp [mkSmall, Metadata.get?_set_ne, Metadata.get?_set_self]

theorem mkSmall_parent_text (count : String → Nat) (base : Metadata) (ctx : String)
    (cidx pi si : Nat) (pc sc : String) :
    (mkSmall count base ctx cidx pi si pc sc).metadata.get? "parent_text"
      = some (Value.str pc) := by
  simp [mkSmall, Metadata.get?_set_self]

theorem mkDirect_text (count : String → Nat) (base : Metadata) (ctx : String)
    (idx : Nat) (c : String) :
    (mkDirect count base ctx idx c).text = prependContext ctx c := rfl

theorem mkDirect_chunk_index (count : String → Nat) (base : Metadata) (ctx : String)
    (idx : Nat) (c : String) :
    (mkDirect count base ctx idx c).metadata.get? "chunk_index" = some (Value.nat idx) := by
  simp [mkDirect, Metadata.get?_set_ne, Metadata.get?_set_self]

theorem mkDirect_is_small_chunk (count : String → Nat) (base : Metadata) (ctx : String)
    (idx : Nat) (c : String) :
    (mkDirect count base ctx idx c).metadata.get? "is_small_chunk"
      = some (Value.bool false) := by
  simp [mkDirect, Metadata.get?_set_ne, Metadata.get?_set_self]

theorem mkDirect_token_count (count : String → Nat) (base : Metadata) (ctx : String)
    (idx : Nat) (c : String) :
    (mkDirect count base ctx idx c).metadata.get? "token_count"
      = some (Value.nat (count c)) := by
  simp [mkDirect, Metadata.get?_set_self]

theorem singleChunk_text (count : String → Nat) (ctx : String) (text : String)
    (metadata : Metadata) (dt : String) :
    (singleChunk count ctx text metadata dt).text = prependContext ctx text := by
  by_cases hc : ctx.truthy <;> simp [singleChunk, hc]

theorem singleChunk_chunk_index (count : String → Nat) (ctx : String) (text : String)
    (metadata : Metadata) (dt : String) :
    (singleChunk count ctx text metadata dt).metadata.get? "chunk_index"
      = some (Value.nat 0) := by
  by_cases hc : ctx.truthy <;>
    simp [singleChunk, hc, Metadata.get?_set_ne, Metadata.get?_set_self]

theorem singleChunk_is_small_chunk (count : String → Nat) (ctx : String) (text : String)
    (metadata : Metadata) (dt : String) :
    (singleChunk count ctx text metadata dt).metadata.get? "is_small_chunk"
      = some (Value.bool false) := by
  by_cases hc : ctx.truthy <;>
    simp [singleChunk, hc, Metadata.get?_set_ne, Metadata.get?_set_self]

theorem singleChunk_token_count (count : String → Nat) (ctx : String) (text : String)
    (metadata : Metadata) (dt : String) :
    (singleChunk count ctx text metadata dt).metadata.get? "token_count"
      = some (Value.nat (count text)) := by
  by_cases hc : ctx.truthy <;>
    simp [singleChunk, hc, Metadata.get?_set_ne, Metadata.get?_set_self]

theorem enhance_text_eq (eng : ReEngine) (c : Chunk) (dt : String) (b : Bool) :
    (enhance_chunk_metadata eng c dt b).text = c.text := by
  by_cases hb : b
  · simp only [enhance_chunk_metadata, hb]
    split
    · rfl
    · split
      · rfl
      · rfl
  · simp [enhance_chunk_metadata, hb]

theorem enhance_get?_eq (eng : ReEngine) (c : Chunk) (dt : String) (b : Bool) (k : String)
    (h1 : k ≠ "hypothetical_questions") (h2 : k ≠ "question_count")
    (h3 : k ≠ "questions_text") :
    (enhance_chunk_metadata eng c dt b).metadata.get? k = c.metadata.get? k := by
  by_cases hb : b
  · simp only [enhance_chunk_metadata, hb]
    split
    · rfl
    · split
      · rfl
      · simp only []
        rw [Metadata.get?_set_ne (Ne.symm h3), Metadata.get?_set_ne (Ne.symm h2),
          Metadata.get?_set_ne (Ne.symm h1)]
  · simp [enhance_chunk_metadata, hb]

theorem maybeEnhance_getElem? (eng : ReEngine) (b : Bool) (dt : String) (l : List Chunk)
    (i : Nat) :
    (maybeEnhance eng b dt l)[i]?
      = (l[i]?).map (fun c => if b then enhance_chunk_metadata eng c dt true else c) := by
  by_cases hb : b
  · simp [maybeEnhance, batch_enhance_chunks, hb, List.getElem?_map]
  · simp [maybeEnhance, hb]

theorem maybeEnhance_length (eng : ReEngine) (b : Bool) (dt : String) (l : List Chunk) :
    (maybeEnhance eng b dt l).length = l.length := by
  by_cases hb : b <;> simp [maybeEnhance, batch_enhance_chunks, hb]

theorem maybeEnhance_mem (eng : ReEngine) (b : Bool) (dt : String) (l : List Chunk)
    (c : Chunk) (hc : c ∈ maybeEnhance eng b dt l) :
    ∃ c₀ ∈ l, c = (if b then enhance_chunk_metadata eng c₀ dt true else c₀) := by
  by_cases hb : b
  · simp only [maybeEnhance, batch_enhance_chunks, hb, if_true, Bool.not_true,
      Bool.false_eq_true, if_false] at hc
    rcases List.mem_map.1 hc with ⟨c₀, hc₀, hec⟩
    exact ⟨c₀, hc₀, by simp [hb, hec.symm]⟩
  · simp only [maybeEnhance, hb, if_false] at hc
    exact ⟨c, hc, by simp [hb]⟩

/-- Transfer of a filtered projection across a chunk transformation that
preserves both the filtering predicate and the projection. -/
theorem filter_map_transfer (f : Chunk → Chunk) (p : Chunk → Bool)
    (g : Chunk → Option Value) (hp : ∀ c, p (f c) = p c) (hg : ∀ c, g (f c) = g c)
    (l : List Chunk) :
    ((l.map f).filter p).map g = (l.filter p).map g := by
  induction l with
  | nil => simp
  | cons a t ih =>
    by_cases h : p a = true
    · simp [List.filter_cons, hp, h, hg, ih]
    · simp only [List.map_cons, List.filter_cons, hp, h]
      simpa using ih

/-- Counting helper: the list `[s, s+1, ..., s+n-1]`. -/
def natsFrom : Nat → Nat → List Nat
  | _, 0 => []
  | s, n + 1 => s :: natsFrom (s + 1) n

theorem natsFrom_eq (s n : Nat) : natsFrom s n = (List.range n).map (fun j => s + j) := by
  induction n generalizing s with
  | zero => rfl
  | succ n ih =>
    rw [natsFrom, List.range_succ_eq_map, ih]
    simp only [List.map_cons, List.map_map, Nat.add_zero, List.cons.injEq, true_and]
    apply List.map_congr_left
    intro j _
    simp only [Function.comp_apply]
    omega

theorem natsFrom_zero (n : Nat) : natsFrom 0 n = List.range n := by
  rw [natsFrom_eq]
  simp

theorem natsFrom_length (s n : Nat) : (natsFrom s n).length = n := by
  rw [natsFrom_eq]
  simp

theorem innerSpec_getElem?_chunk_index (count : String → Nat) (base : Metadata)
    (ctx : String) (pi : Nat) (pc : String) (smalls : List String) :
    ∀ cidx si i c, (innerSpec count base ctx pi pc smalls cidx si)[i]? = some c →
      c.metadata.get? "chunk_index" = some (Value.nat (cidx + i)) := by
  induction smalls with
  | nil => intro cidx si i c h; simp [innerSpec] at h
  | cons sc rest ih =>
    intro cidx si i c h
    cases i with
    | zero =>
      rw [innerSpec, List.getElem?_cons_zero] at h
      cases h
      simpa using mkSmall_chunk_index count base ctx cidx pi si pc sc
    | succ i =>
      rw [innerSpec, List.getElem?_cons_succ] at h
      have := ih (cidx + 1) (si + 1) i c h
      have harith : cidx + 1 + i = cidx + (i + 1) := by omega
      rwa [harith] at this

theorem outerSpec_getElem?_chunk_index (split : Nat → Nat → String → List String)
    (count : String → Nat) (base : Metadata) (ctx : String) (smallSize smallOverlap : Nat)
    (parents : List String) :
    ∀ pi cidx i c,
      (outerSpec split count base ctx smallSize smallOverlap parents pi cidx)[i]? = some c →
      c.metadata.get? "chunk_index" = some (Value.nat (cidx + i)) := by
  induction parents with
  | nil => intro pi cidx i c h; simp [outerSpec] at h
  | cons pc rest ih =>
    intro pi cidx i c h
    rw [outerSpec] at h
    by_cases hi :
        i < (innerSpec count base ctx pi pc (split smallSize smallOverlap pc) cidx 0).length
    · rw [List.getElem?_append_left hi] at h
      exact innerSpec_getElem?_chunk_index count base ctx pi pc _ cidx 0 i c h
    · rw [List.getElem?_append_right (Nat.le_of_not_lt hi)] at h
      have hlen :
          (innerSpec count base ctx pi pc (split smallSize smallOverlap pc) cidx 0).length
            = (split smallSize smallOverlap pc).length :=
        innerSpec_length count base ctx pi pc _ cidx 0
      have := ih (pi + 1) (cidx + (split smallSize smallOverlap pc).length) _ c h
      rw [hlen] at hi this
      have harith :
          cidx + (split smallSize smallOverlap pc).length
              + (i - (split smallSize smallOverlap pc).length)
            = cidx + i := by omega
      rwa [harith] at this

theorem innerSpec_mem (count : String → Nat) (base : Metadata) (ctx : String)
    (pi : Nat) (pc : String) (smalls : List String) :
    ∀ cidx si c, c ∈ innerSpec count base ctx pi pc smalls cidx si →
      ∃ cidx2 si2 sc, sc ∈ smalls ∧ c = mkSmall count base ctx cidx2 pi si2 pc sc := by
  induction smalls with
  | nil => intro cidx si c h; simp [innerSpec] at h
  | cons sc0 rest ih =>
    intro cidx si c h
    rw [innerSpec, List.mem_cons] at h
    cases h with
    | inl h => exact ⟨cidx, si, sc0, List.mem_cons_self _ _, h⟩
    | inr h =>
      rcases ih (cidx + 1) (si + 1) c h with ⟨cidx2, si2, sc, hsc, hc⟩
      exact ⟨cidx2, si2, sc, List.mem_cons_of_mem _ hsc, hc⟩

theorem outerSpec_mem (split : Nat → Nat → String → List String) (count : String → Nat)
    (base : Metadata) (ctx : String) (smallSize smallOverlap : Nat)
    (parents : List String) :
    ∀ pi cidx c,
      c ∈ outerSpec split count base ctx smallSize smallOverlap parents pi cidx →
      ∃ j pc cidx2 si sc, parents[j]? = some pc
        ∧ sc ∈ split smallSize smallOverlap pc
        ∧ c = mkSmall count base ctx cidx2 (pi + j) si pc sc := by
  induction parents with
  | nil => intro pi cidx c h; simp [outerSpec] at h
  | cons pc0 rest ih =>
    intro pi cidx c h
    rw [outerSpec, List.mem_append] at h
    cases h with
    | inl h =>
      rcases innerSpec_mem count base ctx pi pc0 _ cidx 0 c h with ⟨cidx2, si2, sc, hsc, hc⟩
      refine ⟨0, pc0, cidx2, si2, sc, List.getElem?_cons_zero, hsc, ?_⟩
      rwa [Nat.add_zero]
    | inr h =>
      rcases ih (pi + 1) _ c h with ⟨j, pc, cidx2, si, sc, hj, hsc, hc⟩
      refine ⟨j + 1, pc, cidx2, si, sc, ?_, hsc, ?_⟩
      · rwa [List.getElem?_cons_succ]
      · have harith : pi + 1 + j = pi + (j + 1) := by omega
        rwa [harith] at hc

theorem directChunks_getElem? (count : String → Nat) (base : Metadata) (ctx : String)
    (chunks : List String) :
    ∀ idx i c, (directChunks count base ctx chunks idx)[i]? = some c →
      c.metadata.get? "chunk_index" = some (Value.nat (idx + i)) := by
  induction chunks with
  | nil => intro idx i c h; simp [directChunks] at h
  | cons ch rest ih =>
    intro idx i c h
    cases i with
    | zero =>
      rw [directChunks, List.getElem?_cons_zero] at h
      cases h
      simpa using mkDirect_chunk_index count base ctx idx ch
    | succ i =>
      rw [directChunks, List.getElem?_cons_succ] at h
      have := ih (idx + 1) i c h
      have harith : idx + 1 + i = idx + (i + 1) := by omega
      rwa [harith] at this

theorem directChunks_mem (count : String → Nat) (base : Metadata) (ctx : String)
    (chunks : List String) :
    ∀ idx c, c ∈ directChunks count base ctx chunks idx →
      ∃ idx2 ch, ch ∈ chunks ∧ c = mkDirect count base ctx idx2 ch := by
  induction chunks with
  | nil => intro idx c h; simp [directChunks] at h
  | cons ch0 rest ih =>
    intro idx c h
    rw [directChunks, List.mem_cons] at h
    cases h with
    | inl h => exact ⟨idx, ch0, List.mem_cons_self _ _, h⟩
    | inr h =>
      rcases ih (idx + 1) c h with ⟨idx2, ch, hch, hc⟩
      exact ⟨idx2, ch, List.mem_cons_of_mem _ hch, hc⟩

/-- Predicate selecting the chunks recorded under a given parent index. -/
def hasParentIdx (pi : Nat) (c : Chunk) : Bool :=
  decide (c.metadata.get? "parent_chunk_index" = some (Value.nat pi))

/-- Projection reading the recorded small-chunk index of a chunk. -/
def smallIdxOf (c : Chunk) : Option Value :=
  c.metadata.get? "small_chunk_index"

theorem hasParentIdx_mkSmall_self (count : String → Nat) (base : Metadata) (ctx : String)
    (cidx pi si : Nat) (pc sc : String) :
    hasParentIdx pi (mkSmall count base ctx cidx pi si pc sc) = true := by
  simp [hasParentIdx, mkSmall_parent_chunk_index]

theorem hasParentIdx_mkSmall_ne (count : String → Nat) (base : Metadata) (ctx : String)
    (cidx pi si : Nat) (pc sc : String) (pj : Nat) (h : pj ≠ pi) :
    hasParentIdx pj (mkSmall count base ctx cidx pi si pc sc) = false := by
  simp [hasParentIdx, mkSmall_parent_chunk_index, h.symm]

theorem innerSpec_filter_self (count : String → Nat) (base : Metadata) (ctx : String)
    (pi : Nat) (pc : String) (smalls : List String) :
    ∀ cidx si, (innerSpec count base ctx pi pc smalls cidx si).filter (hasParentIdx pi)
      = innerSpec count base ctx pi pc smalls cidx si := by
  induction smalls with
  | nil => intro cidx si; rfl
  | cons sc rest ih =>
    intro cidx si
    rw [innerSpec, List.filter_cons]
    simp [hasParentIdx_mkSmall_self, ih]

theorem innerSpec_filter_ne (count : String → Nat) (base : Metadata) (ctx : String)
    (pi : Nat) (pc : String) (smalls : List String) (pj : Nat) (h : pj ≠ pi) :
    ∀ cidx si, (innerSpec count base ctx pi pc smalls cidx si).filter (hasParentIdx pj)
      = [] := by
  induction smalls with
  | nil => intro cidx si; rfl
  | cons sc rest ih =>
    intro cidx si
    rw [innerSpec, List.filter_cons]
    simp [hasParentIdx_mkSmall_ne count base ctx _ pi _ pc sc pj h, ih]

theorem innerSpec_map_smallIdx (count : String → Nat) (base : Metadata) (ctx : String)
    (pi : Nat) (pc : String) (smalls : List String) :
    ∀ cidx si, (innerSpec count base ctx pi pc smalls cidx si).map smallIdxOf
      = (natsFrom si smalls.length).map (fun n => some (Value.nat n)) := by
  induction smalls with
  | nil => intro cidx si; rfl
  | cons sc rest ih =>
    intro cidx si
    rw [innerSpec, List.map_cons, List.length_cons, natsFrom, List.map_cons, ih]
    rw [show smallIdxOf (mkSmall count base ctx cidx pi si pc sc) = some (Value.nat si) from
      mkSmall_small_chunk_index count base ctx cidx pi si pc sc]

theorem outerSpec_filter_lt (split : Nat → Nat → String → List String)
    (count : String → Nat) (base : Metadata) (ctx : String) (smallSize smallOverlap : Nat)
    (parents : List String) :
    ∀ pi cidx pj, pj < pi →
      (outerSpec split count base ctx smallSize smallOverlap parents pi cidx).filter
        (hasParentIdx pj) = [] := by
  induction parents with
  | nil => intro pi cidx pj _; rfl
  | cons pc rest ih =>
    intro pi cidx pj hlt
    rw [outerSpec, List.filter_append]
    rw [innerSpec_filter_ne count base ctx pi pc _ pj (by omega)]
    rw [ih (pi + 1) _ pj (by omega)]
    rfl

theorem outerSpec_filter_block (split : Nat → Nat → String → List String)
    (count : String → Nat) (base : Metadata) (ctx : String) (smallSize smallOverlap : Nat)
    (parents : List String) :
    ∀ pi cidx j pc, parents[j]? = some pc →
      ((outerSpec split count base ctx smallSize smallOverlap parents pi cidx).filter
          (hasParentIdx (pi + j))).map smallIdxOf
        = (natsFrom 0 (split smallSize smallOverlap pc).length).map
            (fun n => some (Value.nat n)) := by
  induction parents with
  | nil => intro pi cidx j pc h; simp at h
  | cons pc0 rest ih =>
    intro pi cidx j pc h
    rw [outerSpec, List.filter_append, List.map_append]
    cases j with
    | zero =>
      rw [List.getElem?_cons_zero] at h
      cases h
      rw [Nat.add_zero, innerSpec_filter_self, outerSpec_filter_lt _ _ _ _ _ _ _ _ _ pi
        (by omega)]
      rw [innerSpec_map_smallIdx]
      simp
    | succ j =>
      rw [List.getElem?_cons_succ] at h
      rw [innerSpec_filter_ne count base ctx pi pc0 _ (pi + (j + 1)) (by omega)]
      have := ih (pi + 1) (cidx + (split smallSize smallOverlap pc0).length) j pc h
      have harith : pi + 1 + j = pi + (j + 1) := by omega
      rw [harith] at this
      rw [this]
      rfl

/-- The document type `chunk_text` resolves (chunker.py, lines 275-277):
the explicit argument when given, else detection from the source filename. -/
def resolveDocType (metadata : Metadata) (dto : Option String) : String :=
  match dto with
  | some d => d
  | none => detect_document_type (metadata.getStrD "source" "") metadata

theorem chunk_text_single_eq (split : Nat → Nat → String → List String)
    (count : String → Nat) (eng : ReEngine) (text : String) (m : Metadata)
    (dto : Option String) (es enableQ : Bool)
    (h1 : (get_chunking_config (resolveDocType m dto)).one_per_control = true)
    (h2 : count text ≤ (get_chunking_config (resolveDocType m dto)).chunk_size_tokens) :
    chunk_text split count eng text m dto es enableQ
      = maybeEnhance eng enableQ (resolveDocType m dto)
          [singleChunk count (build_context_label m (resolveDocType m dto)) text m
            (resolveDocType m dto)] := by
  cases dto with
  | some d =>
    simp only [resolveDocType] at h1 h2 ⊢
    simp only [chunk_text]
    rw [if_pos ⟨h1, h2⟩]
  | none =>
    simp only [resolveDocType] at h1 h2 ⊢
    simp only [chunk_text]
    rw [if_pos ⟨h1, h2⟩]

theorem chunk_text_hier_eq (split : Nat → Nat → String → List String)
    (count : String → Nat) (eng : ReEngine) (text : String) (m : Metadata)
    (dto : Option String) (es enableQ : Bool)
    (hnp : ¬((get_chunking_config (resolveDocType m dto)).one_per_control = true
      ∧ count text ≤ (get_chunking_config (resolveDocType m dto)).chunk_size_tokens))
    (hh : ((get_chunking_config (resolveDocType m dto)).use_small2big && es) = true
      ∧ 1 < (split (get_chunking_config (resolveDocType m dto)).chunk_size_tokens
          (get_chunking_config (resolveDocType m dto)).chunk_overlap_tokens text).length) :
    chunk_text split count eng text m dto es enableQ
      = maybeEnhance eng enableQ (resolveDocType m dto)
          (small2bigOuter split count
            (mkBase m (resolveDocType m dto) (build_context_label m (resolveDocType m dto)))
            (build_context_label m (resolveDocType m dto))
            (get_chunking_config (resolveDocType m dto)).small_chunk_size
            (calculate_adaptive_overlap
              (get_chunking_config (resolveDocType m dto)).small_chunk_size)
            (split (get_chunking_config (resolveDocType m dto)).chunk_size_tokens
              (get_chunking_config (resolveDocType m dto)).chunk_overlap_tokens text)
            0 []) := by
  cases dto with
  | some d =>
    simp only [resolveDocType] at hnp hh ⊢
    simp only [chunk_text]
    rw [if_neg hnp, if_pos hh]
  | none =>
    simp only [resolveDocType] at hnp hh ⊢
    simp only [chunk_text]
    rw [if_neg hnp, if_pos hh]

theorem chunk_text_direct_eq (split : Nat → Nat → String → List String)
    (count : String → Nat) (eng : ReEngine) (text : String) (m : Metadata)
    (dto : Option String) (es enableQ : Bool)
    (hnp : ¬((get_chunking_config (resolveDocType m dto)).one_per_control = true
      ∧ count text ≤ (get_chunking_config (resolveDocType m dto)).chunk_size_tokens))
    (hnh : ¬(((get_chunking_config (resolveDocType m dto)).use_small2big && es) = true
      ∧ 1 < (split (get_chunking_config (resolveDocType m dto)).chunk_size_tokens
          (get_chunking_config (resolveDocType m dto)).chunk_overlap_tokens text).length)) :
    chunk_text split count eng text m dto es enableQ
      = maybeEnhance eng enableQ (resolveDocType m dto)
          (directChunks count
            (mkBase m (resolveDocType m dto) (build_context_label m (resolveDocType m dto)))
            (build_context_label m (resolveDocType m dto))
            (split (get_chunking_config (resolveDocType m dto)).chunk_size_tokens
              (get_chunking_config (resolveDocType m dto)).chunk_overlap_tokens text)
            0) := by
  cases dto with
  | some d =>
    simp only [resolveDocType] at hnp hnh ⊢
    simp only [chunk_text]
    rw [if_neg hnp, if_neg hnh]
  | none =>
    simp only [resolveDocType] at hnp hnh ⊢
    simp only [chunk_text]
    rw [if_neg hnp, if_neg hnh]

/-- Formula stated by the specification for the small-tier overlap,
following its words: `clamp(max(20, round(S*0.2)), <= S/2)` with `round`
read as nearest-integer rounding of `S/5` (the code instead truncates). -/
def spec_small_overlap (S : Nat) : Nat :=
  min (max 20 ((2 * S + 5) / 10)) (S / 2)

/-- C6 counterexample: at small budget `S = 103` the code truncates
`103 * 0.2 = 20.6` to `20`, while the claimed formula rounds it to `21`,
so the claimed equality fails. -/
theorem C6_round_counterexample :
    calculate_adaptive_overlap 103 = 20 ∧ spec_small_overlap 103 = 21
      ∧ calculate_adaptive_overlap 103 ≠ spec_small_overlap 103 := by
  refine ⟨by decide, by decide, by decide⟩

/-- C6 (amended): for every positive small budget `S` the small-tier
overlap equals `min(max(20, floor(S*0.2)), S div 2)` — truncation, not
rounding — and is therefore strictly less than `S`. -/
theorem C6_overlap_floor (S : Nat) (h : 0 < S) :
    calculate_adaptive_overlap S = min (max 20 (S / 5)) (S / 2)
      ∧ calculate_adaptive_overlap S < S := by
  constructor
  · simp only [calculate_adaptive_overlap]
    omega
  · simp only [calculate_adaptive_overlap]
    omega

/-- C6 witness: the amended statement evaluated at the engine's default
small budget `S = 256`. -/
theorem C6_overlap_floor_inst :
    calculate_adaptive_overlap 256 = min (max 20 (256 / 5)) (256 / 2)
      ∧ calculate_adaptive_overlap 256 < 256 :=
  C6_overlap_floor 256 (by decide)

/-- The six metadata `document_type` values the classifier honors
(chunker.py, lines 165-176). -/
def metadataTypeWhitelist : List String :=
  ["800-53_xml", "security_pattern", "positioning_guide", "zone_guide",
   "grouping_guide", "segmentation_guide"]

/-- C8: an explicit `document_type` in side metadata is honored exactly
for the six whitelisted values (whenever the preceding filename block
fell through); any other value leaves the metadata stage empty, so
classification falls through to the filename-keyword rules and then
`'default'`. -/
theorem C8_metadata_type_whitelist (filename : String) (m : Metadata) (v : String)
    (hv : m.get? "document_type" = some (Value.str v)) :
    (v ∈ metadataTypeWhitelist →
      detectMetadataType m = some v
        ∧ (detectFilenamePrimary filename m = none → detect_document_type filename m = v))
    ∧ (v ∉ metadataTypeWhitelist →
        detectMetadataType m = none
          ∧ detect_document_type filename m
              = ((detectFilenamePrimary filename m).orElse
                  (fun _ => detectFilenameKeyword filename)).getD "default") := by
  constructor
  · intro hmem
    have hd : detectMetadataType m = some v := by
      simp only [metadataTypeWhitelist, List.mem_cons, List.not_mem_nil, or_false] at hmem
      rcases hmem with rfl | rfl | rfl | rfl | rfl | rfl <;>
        simp [detectMetadataType, hv]
    refine ⟨hd, fun hpn => ?_⟩
    simp [detect_document_type, Option.orElse, hpn, hd]
  · intro hnm
    simp only [metadataTypeWhitelist, List.mem_cons, List.not_mem_nil, or_false,
      not_or] at hnm
    obtain ⟨h1, h2, h3, h4, h5, h6⟩ := hnm
    have hd : detectMetadataType m = none := by
      simp [detectMetadataType, hv, h1, h2, h3, h4, h5, h6]
    refine ⟨hd, ?_⟩
    cases hp : detectFilenamePrimary filename m <;>
      simp [detect_document_type, Option.orElse, hp, hd]

/-- C8 witness: a metadata `document_type` of `query_patterns` (not on the
whitelist) is ignored and a neutral filename classifies as `default`. -/
theorem C8_metadata_type_whitelist_inst :
    detect_document_type "notes.txt" [("document_type", Value.str "query_patterns")]
      = "default" := by
  have h :=
    (C8_metadata_type_whitelist "notes.txt"
      [("document_type", Value.str "query_patterns")] "query_patterns" rfl).2 (by decide)
  rw [h.2]
  decide

/-- Stub regex engine (returns no matches); claims about code paths that
never consult the regex engine are instantiated with it. -/
def engNone : ReEngine :=
  ⟨fun _ => [], fun _ => []⟩

/-- C10: a control-type chunk with no control id, no family and none of
the trigger keywords in its text yields the empty question list, and
metadata enhancement returns the chunk completely unchanged — no
question fields are added. -/
theorem C10_no_questions_unchanged :
    generate_hypothetical_questions engNone "x" [] "800-53_catalog" 3 = []
      ∧ enhance_chunk_metadata engNone ⟨"x", []⟩ "800-53_catalog" true = ⟨"x", []⟩ := by
  constructor
  · decide
  · decide

theorem enhanced_text_plain (eng : ReEngine) (dt : String) (b : Bool) (c0 : Chunk) :
    ((if b then enhance_chunk_metadata eng c0 dt true else c0) : Chunk).text = c0.text := by
  by_cases hb : b
  · simp [hb, enhance_text_eq]
  · simp [hb]

theorem enhanced_get?_plain (eng : ReEngine) (dt : String) (b : Bool) (c0 : Chunk)
    (k : String) (h1 : k ≠ "hypothetical_questions") (h2 : k ≠ "question_count")
    (h3 : k ≠ "questions_text") :
    ((if b then enhance_chunk_metadata eng c0 dt true else c0) : Chunk).metadata.get? k
      = c0.metadata.get? k := by
  by_cases hb : b
  · simp [hb, enhance_get?_eq eng c0 dt true k h1 h2 h3]
  · simp [hb]

/-- C5: for a document type whose configuration carries the suppress-split
flag (`one_per_control`) and a text whose token count fits the target,
`chunk_text` emits exactly one chunk with `chunk_index` 0,
`is_small_chunk` false and `token_count` equal to the whole text's token
count, and the output does not depend on the splitter at all (the
recursive splitter is never invoked). -/
theorem C5_suppress_split (split : Nat → Nat → String → List String)
    (count : String → Nat) (eng : ReEngine) (text : String) (m : Metadata)
    (dt : String) (es enableQ : Bool)
    (h1 : (get_chunking_config dt).one_per_control = true)
    (h2 : count text ≤ (get_chunking_config dt).chunk_size_tokens) :
    (chunk_text split count eng text m (some dt) es enableQ).length = 1
    ∧ (∀ c, (chunk_text split count eng text m (some dt) es enableQ)[0]? = some c →
        c.metadata.get? "chunk_index" = some (Value.nat 0)
        ∧ c.metadata.get? "is_small_chunk" = some (Value.bool false)
        ∧ c.metadata.get? "token_count" = some (Value.nat (count text)))
    ∧ (∀ split2, chunk_text split2 count eng text m (some dt) es enableQ
        = chunk_text split count eng text m (some dt) es enableQ) := by
  have he := chunk_text_single_eq split count eng text m (some dt) es enableQ h1 h2
  refine ⟨?_, ?_, ?_⟩
  · rw [he, maybeEnhance_length]
    rfl
  · intro c hc
    rw [he, maybeEnhance_getElem?, List.getElem?_cons_zero, Option.map_some'] at hc
    have hc' :
        (if enableQ then
          enhance_chunk_metadata eng
            (singleChunk count (build_context_label m (resolveDocType m (some dt))) text m
              (resolveDocType m (some dt))) (resolveDocType m (some dt)) true
        else
          singleChunk count (build_context_label m (resolveDocType m (some dt))) text m
            (resolveDocType m (some dt))) = c := by
      exact Option.some.inj hc
    rw [← hc']
    refine ⟨?_, ?_, ?_⟩
    · rw [enhanced_get?_plain _ _ _ _ _ (by decide) (by decide) (by decide),
        singleChunk_chunk_index]
    · rw [enhanced_get?_plain _ _ _ _ _ (by decide) (by decide) (by decide),
        singleChunk_is_small_chunk]
    · rw [enhanced_get?_plain _ _ _ _ _ (by decide) (by decide) (by decide),
        singleChunk_token_count]
  · intro split2
    rw [he, chunk_text_single_eq split2 count eng text m (some dt) es enableQ h1 h2]

/-- C5 witness: a short control text for the `800-53_catalog` configuration
yields exactly one chunk. -/
theorem C5_suppress_split_inst :
    (chunk_text (fun _ _ t => [t]) String.length engNone "ab" []
      (some "800-53_catalog") true true).length = 1 :=
  (C5_suppress_split (fun _ _ t => [t]) String.length engNone "ab" [] "800-53_catalog"
    true true (by decide) (by decide)).1

/-- C7 counterexample: a chunk whose metadata already carries a
`question_count` key has that key overwritten (7 becomes 2) by metadata
enhancement, so enhancement does not agree with the input metadata on
every key the input already had. -/
theorem C7_existing_key_overwritten :
    Metadata.get? [("control_id", Value.str "AC-3"), ("question_count", Value.nat 7)]
        "question_count" = some (Value.nat 7)
    ∧ (enhance_chunk_metadata engNone
        ⟨"x", [("control_id", Value.str "AC-3"), ("question_count", Value.nat 7)]⟩
        "800-53_catalog" true).metadata.get? "question_count" = some (Value.nat 2) := by
  constructor
  · decide
  · decide

/-- C7 (amended): metadata enhancement preserves the chunk text and every
metadata key other than `hypothetical_questions`, `question_count` and
`questions_text`; the only possible changes are setting those three keys. -/
theorem C7_enhance_frame (eng : ReEngine) (c : Chunk) (dt : String) (b : Bool) (k : String)
    (h1 : k ≠ "hypothetical_questions") (h2 : k ≠ "question_count")
    (h3 : k ≠ "questions_text") :
    (enhance_chunk_metadata eng c dt b).text = c.text
    ∧ (enhance_chunk_metadata eng c dt b).metadata.get? k = c.metadata.get? k :=
  ⟨enhance_text_eq eng c dt b, enhance_get?_eq eng c dt b k h1 h2 h3⟩

/-- C7 witness: on a concrete control chunk, enhancement keeps the text
and the pre-existing `control_id` entry. -/
theorem C7_enhance_frame_inst :
    (enhance_chunk_metadata engNone ⟨"x", [("control_id", Value.str "AC-3")]⟩
        "800-53_catalog" true).text = "x"
    ∧ (enhance_chunk_metadata engNone ⟨"x", [("control_id", Value.str "AC-3")]⟩
        "800-53_catalog" true).metadata.get? "control_id" = some (Value.str "AC-3") := by
  have h := C7_enhance_frame engNone ⟨"x", [("control_id", Value.str "AC-3")]⟩
    "800-53_catalog" true "control_id" (by decide) (by decide) (by decide)
  refine ⟨h.1, ?_⟩
  rw [h.2]
  decide

theorem dedupFirst_take_three (a b c : String) (l : List String)
    (hab : a ≠ b) (hac : a ≠ c) (hbc : b ≠ c) :
    (dedupFirst (a :: b :: c :: l)).take 3 = [a, b, c] := by
  simp [dedupFirst, dedupFirstAux, Ne.symm hab, Ne.symm hac, Ne.symm hbc]

/-- C4: a control chunk whose metadata carries control id `AC-3`, name
`Access Enforcement` and family `AC` gets, for every control-family
document type, a question list containing a question mentioning `AC-3`
and one mentioning `Access Enforcement`, of length at most 3 and with no
duplicates. -/
theorem C4_control_questions (eng : ReEngine) (text : String) (m : Metadata) (dt : String)
    (hdt : dt ∈ controlDocTypes)
    (hid : m.get? "control_id" = some (Value.str "AC-3"))
    (hname : m.get? "control_name" = some (Value.str "Access Enforcement"))
    (hfam : m.get? "family" = some (Value.str "AC")) :
    (∃ q ∈ generate_hypothetical_questions eng text m dt 3, strContains q "AC-3" = true)
    ∧ (∃ q ∈ generate_hypothetical_questions eng text m dt 3,
        strContains q "Access Enforcement" = true)
    ∧ (generate_hypothetical_questions eng text m dt 3).length ≤ 3
    ∧ (generate_hypothetical_questions eng text m dt 3).Nodup := by
  have hq : generate_hypothetical_questions eng text m dt 3
      = ["What is the purpose of control AC-3?",
         "What are the requirements for AC-3?",
         "How do I implement Access Enforcement?"] := by
    simp only [generate_hypothetical_questions]
    rw [if_pos hdt]
    simp only [generate_control_questions, Metadata.getD, hid, hname, hfam,
      Option.getD_some, Value.truthy, Value.pyStr]
    simp only [String.reduceBEq, Bool.not_false, if_true, List.cons_append,
      List.nil_append, List.append_assoc]
    rw [dedupFirst_take_three _ _ _ _ (by decide) (by decide) (by decide)]
    decide
  rw [hq]
  refine ⟨by decide, by decide, by decide, by decide⟩

/-- C4 witness: the property at a concrete chunk of the `800-53_catalog`
document type. -/
theorem C4_control_questions_inst :
    (∃ q ∈ generate_hypothetical_questions engNone ""
        [("control_id", Value.str "AC-3"), ("control_name", Value.str "Access Enforcement"),
         ("family", Value.str "AC")] "800-53_catalog" 3, strContains q "AC-3" = true)
    ∧ (∃ q ∈ generate_hypothetical_questions engNone ""
        [("control_id", Value.str "AC-3"), ("control_name", Value.str "Access Enforcement"),
         ("family", Value.str "AC")] "800-53_catalog" 3,
        strContains q "Access Enforcement" = true)
    ∧ (generate_hypothetical_questions engNone ""
        [("control_id", Value.str "AC-3"), ("control_name", Value.str "Access Enforcement"),
         ("family", Value.str "AC")] "800-53_catalog" 3).length ≤ 3
    ∧ (generate_hypothetical_questions engNone ""
        [("control_id", Value.str "AC-3"), ("control_name", Value.str "Access Enforcement"),
         ("family", Value.str "AC")] "800-53_catalog" 3).Nodup :=
  C4_control_questions engNone ""
    [("control_id", Value.str "AC-3"), ("control_name", Value.str "Access Enforcement"),
     ("family", Value.str "AC")] "800-53_catalog" (by decide) (by decide) (by decide)
    (by decide)

theorem chunk_documents_parallel_foldl (pipe : Doc → Except String (List Chunk))
    (docs : List Doc) :
    ∀ (order : List Nat) (acc : List Chunk),
      order.foldl (fun all_chunks i =>
        match docs.get? i with
        | some doc =>
          match pipe doc with
          | Except.ok chunks => all_chunks ++ chunks
          | Except.error _ => all_chunks
        | none => all_chunks) acc
      = acc
        ++ (order.filterMap
              (fun i => (docs.get? i).bind (fun d => (pipe d).toOption))).flatten := by
  intro order
  induction order with
  | nil => intro acc; simp
  | cons i rest ih =>
    intro acc
    rw [List.foldl_cons, List.filterMap_cons]
    cases hd : docs.get? i with
    | none => simp only [hd]; rw [ih]; simp
    | some d =>
      cases hp : pipe d with
      | ok chunks =>
        simp only [hd, hp]
        rw [ih]
        simp [hp, Except.toOption, List.append_assoc]
      | error e =>
        simp only [hd, hp]
        rw [ih]
        simp [hp, Except.toOption]

/-- C3: under any completion order of the parallel batch, the orchestrator
returns (it is a total function of the per-document pipeline outcomes)
exactly the concatenation of the successfully-chunked documents' chunk
lists: a document whose pipeline raises (`Except.error`) contributes zero
chunks and is filtered out, and every document whose pipeline succeeds
contributes its chunk list unchanged, as a contiguous block of the
result. -/
theorem C3_parallel_failure_isolation (pipe : Doc → Except String (List Chunk))
    (docs : List Doc) (order : List Nat)
    (hperm : order.Perm (List.range docs.length)) :
    chunk_documents_parallel pipe docs order
      = (order.filterMap
            (fun i => (docs.get? i).bind (fun d => (pipe d).toOption))).flatten
    ∧ ∀ i d chunks, docs.get? i = some d → pipe d = Except.ok chunks →
        chunks <:+: chunk_documents_parallel pipe docs order := by
  have heq : chunk_documents_parallel pipe docs order
      = (order.filterMap
            (fun i => (docs.get? i).bind (fun d => (pipe d).toOption))).flatten := by
    rw [chunk_documents_parallel, chunk_documents_parallel_foldl]
    simp
  refine ⟨heq, ?_⟩
  intro i d chunks hd hp
  have hilt : i < docs.length := by
    by_contra hge
    rw [List.get?_eq_none.2 (Nat.le_of_not_lt hge)] at hd
    exact Option.noConfusion hd
  have hio : i ∈ order := hperm.mem_iff.2 (List.mem_range.2 hilt)
  have hmem : chunks
      ∈ order.filterMap (fun i => (docs.get? i).bind (fun d => (pipe d).toOption)) :=
    List.mem_filterMap.2 ⟨i, hio, by
      simp only [hd, Option.some_bind, hp, Except.toOption]⟩
  rw [heq]
  exact List.infix_of_mem_flatten hmem

/-- C3 witness: a two-document batch whose second document's pipeline
raises, collected in the completion order (1, 0): the result is exactly
document 1's chunks and the failing document contributes nothing. -/
theorem C3_parallel_failure_isolation_inst :
    chunk_documents_parallel
        (fun d => if d.text = "b" then Except.error "boom"
                  else Except.ok [⟨"a-chunk", []⟩])
        [⟨"a", []⟩, ⟨"b", []⟩] [1, 0]
      = (([1, 0] : List Nat).filterMap
          (fun i => (([⟨"a", []⟩, ⟨"b", []⟩] : List Doc).get? i).bind
            (fun d => ((fun d => if d.text = "b" then Except.error "boom"
                  else Except.ok [⟨"a-chunk", ([] : Metadata)⟩]) d).toOption))).flatten :=
  (C3_parallel_failure_isolation
    (fun d => if d.text = "b" then Except.error "boom" else Except.ok [⟨"a-chunk", []⟩])
    [⟨"a", []⟩, ⟨"b", []⟩] [1, 0] (by decide)).1

/-- C2: for every document passed through `chunk_text` — over all three
code paths (suppress-split single chunk, small-to-big hierarchy, and
direct parent emission) and whether or not question enhancement runs —
the chunk at position `i` of the output records `chunk_index = i`, so the
`chunk_index` values form exactly the contiguous set 0..n-1 in emission
order. -/
theorem C2_chunk_index_contiguous (split : Nat → Nat → String → List String)
    (count : String → Nat) (eng : ReEngine) (text : String) (m : Metadata)
    (dto : Option String) (es enableQ : Bool) :
    ∀ i c, (chunk_text split count eng text m dto es enableQ)[i]? = some c →
      c.metadata.get? "chunk_index" = some (Value.nat i) := by
  intro i c hc
  by_cases hp : (get_chunking_config (resolveDocType m dto)).one_per_control = true
      ∧ count text ≤ (get_chunking_config (resolveDocType m dto)).chunk_size_tokens
  · rw [chunk_text_single_eq split count eng text m dto es enableQ hp.1 hp.2,
      maybeEnhance_getElem?] at hc
    cases i with
    | zero =>
      rw [List.getElem?_cons_zero, Option.map_some'] at hc
      rw [← Option.some.inj hc,
        enhanced_get?_plain _ _ _ _ _ (by decide) (by decide) (by decide),
        singleChunk_chunk_index]
    | succ j =>
      rw [List.getElem?_cons_succ] at hc
      simp at hc
  · by_cases hh : ((get_chunking_config (resolveDocType m dto)).use_small2big && es) = true
        ∧ 1 < (split (get_chunking_config (resolveDocType m dto)).chunk_size_tokens
            (get_chunking_config (resolveDocType m dto)).chunk_overlap_tokens text).length
    · rw [chunk_text_hier_eq split count eng text m dto es enableQ hp hh,
        maybeEnhance_getElem?] at hc
      cases h0 : (small2bigOuter split count
          (mkBase m (resolveDocType m dto) (build_context_label m (resolveDocType m dto)))
          (build_context_label m (resolveDocType m dto))
          (get_chunking_config (resolveDocType m dto)).small_chunk_size
          (calculate_adaptive_overlap
            (get_chunking_config (resolveDocType m dto)).small_chunk_size)
          (split (get_chunking_config (resolveDocType m dto)).chunk_size_tokens
            (get_chunking_config (resolveDocType m dto)).chunk_overlap_tokens text)
          0 [])[i]? with
      | none => rw [h0] at hc; simp at hc
      | some c0 =>
        rw [h0, Option.map_some'] at hc
        rw [small2bigOuter_eq, List.nil_append] at h0
        have hidx := outerSpec_getElem?_chunk_index _ _ _ _ _ _ _ 0 0 i c0 h0
        rw [Nat.zero_add] at hidx
        rw [← Option.some.inj hc,
          enhanced_get?_plain _ _ _ _ _ (by decide) (by decide) (by decide), hidx]
    · rw [chunk_text_direct_eq split count eng text m dto es enableQ hp hh,
        maybeEnhance_getElem?] at hc
      cases h0 : (directChunks count
          (mkBase m (resolveDocType m dto) (build_context_label m (resolveDocType m dto)))
          (build_context_label m (resolveDocType m dto))
          (split (get_chunking_config (resolveDocType m dto)).chunk_size_tokens
            (get_chunking_config (resolveDocType m dto)).chunk_overlap_tokens text)
          0)[i]? with
      | none => rw [h0] at hc; simp at hc
      | some c0 =>
        rw [h0, Option.map_some'] at hc
        have hidx := directChunks_getElem? _ _ _ _ 0 i c0 h0
        rw [Nat.zero_add] at hidx
        rw [← Option.some.inj hc,
          enhanced_get?_plain _ _ _ _ _ (by decide) (by decide) (by decide), hidx]

/-- C2 witness: the single chunk emitted for a two-character text of an
unknown document type carries `chunk_index = 0`. -/
theorem C2_chunk_index_contiguous_inst :
    (Chunk.metadata
        ⟨"hi", [("document_type", Value.str "zz"), ("chunk_index", Value.nat 0),
          ("is_small_chunk", Value.bool false), ("token_count", Value.nat 0)]⟩).get?
      "chunk_index" = some (Value.nat 0) :=
  C2_chunk_index_contiguous (fun _ _ t => [t]) (fun _ => 0) engNone "hi" [] (some "zz")
    false false 0
    ⟨"hi", [("document_type", Value.str "zz"), ("chunk_index", Value.nat 0),
      ("is_small_chunk", Value.bool false), ("token_count", Value.nat 0)]⟩
    (by decide)

theorem hasParentIdx_enhance (eng : ReEngine) (dt : String) (pi : Nat) (c : Chunk) :
    hasParentIdx pi (enhance_chunk_metadata eng c dt true) = hasParentIdx pi c := by
  simp [hasParentIdx,
    enhance_get?_eq eng c dt true "parent_chunk_index" (by decide) (by decide) (by decide)]

theorem smallIdxOf_enhance (eng : ReEngine) (dt : String) (c : Chunk) :
    smallIdxOf (enhance_chunk_metadata eng c dt true) = smallIdxOf c := by
  simp [smallIdxOf,
    enhance_get?_eq eng c dt true "small_chunk_index" (by decide) (by decide) (by decide)]

theorem maybeEnhance_filter_smallIdx (eng : ReEngine) (b : Bool) (dt : String)
    (l : List Chunk) (pi : Nat) :
    ((maybeEnhance eng b dt l).filter (hasParentIdx pi)).map smallIdxOf
      = (l.filter (hasParentIdx pi)).map smallIdxOf := by
  by_cases hb : b
  · simp only [maybeEnhance, batch_enhance_chunks, hb, if_true, Bool.not_true,
      Bool.false_eq_true, if_false]
    exact filter_map_transfer _ _ _ (hasParentIdx_enhance eng dt pi)
      (smallIdxOf_enhance eng dt) l
  · simp [maybeEnhance, hb]

/-- C1: when the small-to-big hierarchy runs (hierarchy enabled for the
document type and by the caller, suppress-split not taken, and the parent
split yields more than one span), every emitted small chunk's
`parent_text` is byte-identical to the parent span at its recorded
`parent_chunk_index` (the context prefix is never applied to
`parent_text`), and under any one parent the recorded
`small_chunk_index` values are contiguous starting from 0, in emission
order. -/
theorem C1_hierarchy_parent_links (split : Nat → Nat → String → List String)
    (count : String → Nat) (eng : ReEngine) (text : String) (m : Metadata)
    (dto : Option String) (enableQ : Bool)
    (hnp : ¬((get_chunking_config (resolveDocType m dto)).one_per_control = true
      ∧ count text ≤ (get_chunking_config (resolveDocType m dto)).chunk_size_tokens))
    (hu : (get_chunking_config (resolveDocType m dto)).use_small2big = true)
    (hlen : 1 < (split (get_chunking_config (resolveDocType m dto)).chunk_size_tokens
        (get_chunking_config (resolveDocType m dto)).chunk_overlap_tokens text).length) :
    (∀ c ∈ chunk_text split count eng text m dto true enableQ,
      ∃ pi pc, c.metadata.get? "parent_chunk_index" = some (Value.nat pi)
        ∧ (split (get_chunking_config (resolveDocType m dto)).chunk_size_tokens
            (get_chunking_config (resolveDocType m dto)).chunk_overlap_tokens text)[pi]?
            = some pc
        ∧ c.metadata.get? "parent_text" = some (Value.str pc))
    ∧ (∀ pi pc,
        (split (get_chunking_config (resolveDocType m dto)).chunk_size_tokens
          (get_chunking_config (resolveDocType m dto)).chunk_overlap_tokens text)[pi]?
          = some pc →
        ((chunk_text split count eng text m dto true enableQ).filter
            (hasParentIdx pi)).map smallIdxOf
          = (List.range ((chunk_text split count eng text m dto true enableQ).filter
                (hasParentIdx pi)).length).map (fun n => some (Value.nat n))) := by
  have hh : ((get_chunking_config (resolveDocType m dto)).use_small2big && true) = true
      ∧ 1 < (split (get_chunking_config (resolveDocType m dto)).chunk_size_tokens
          (get_chunking_config (resolveDocType m dto)).chunk_overlap_tokens text).length := by
    constructor
    · rw [hu]
      rfl
    · exact hlen
  have he := chunk_text_hier_eq split count eng text m dto true enableQ hnp hh
  constructor
  · intro c hc
    rw [he] at hc
    rcases maybeEnhance_mem _ _ _ _ c hc with ⟨c0, hc0, hcc⟩
    rw [small2bigOuter_eq, List.nil_append] at hc0
    rcases outerSpec_mem _ _ _ _ _ _ _ 0 0 c0 hc0 with ⟨j, pc, cidx2, si, sc, hj, _, hmk⟩
    refine ⟨j, pc, ?_, hj, ?_⟩
    · rw [hcc, enhanced_get?_plain _ _ _ _ _ (by decide) (by decide) (by decide), hmk,
        mkSmall_parent_chunk_index]
      rw [Nat.zero_add]
    · rw [hcc, enhanced_get?_plain _ _ _ _ _ (by decide) (by decide) (by decide), hmk,
        mkSmall_parent_text]
  · intro pi pc hpc
    have hres : chunk_text split count eng text m dto true enableQ
        = maybeEnhance eng enableQ (resolveDocType m dto)
            (outerSpec split count
              (mkBase m (resolveDocType m dto) (build_context_label m (resolveDocType m dto)))
              (build_context_label m (resolveDocType m dto))
              (get_chunking_config (resolveDocType m dto)).small_chunk_size
              (calculate_adaptive_overlap
                (get_chunking_config (resolveDocType m dto)).small_chunk_size)
              (split (get_chunking_config (resolveDocType m dto)).chunk_size_tokens
                (get_chunking_config (resolveDocType m dto)).chunk_overlap_tokens text)
              0 0) := by
      rw [he, small2bigOuter_eq, List.nil_append, List.length_nil]
    have hblock := outerSpec_filter_block split count
      (mkBase m (resolveDocType m dto) (build_context_label m (resolveDocType m dto)))
      (build_context_label m (resolveDocType m dto))
      (get_chunking_config (resolveDocType m dto)).small_chunk_size
      (calculate_adaptive_overlap
        (get_chunking_config (resolveDocType m dto)).small_chunk_size)
      (split (get_chunking_config (resolveDocType m dto)).chunk_size_tokens
        (get_chunking_config (resolveDocType m dto)).chunk_overlap_tokens text)
      0 0 pi pc hpc
    rw [Nat.zero_add] at hblock
    have h1 : ((chunk_text split count eng text m dto true enableQ).filter
          (hasParentIdx pi)).map smallIdxOf
        = (natsFrom 0
            ((split (get_chunking_config (resolveDocType m dto)).small_chunk_size
              (calculate_adaptive_overlap
                (get_chunking_config (resolveDocType m dto)).small_chunk_size)
              pc).length)).map (fun n => some (Value.nat n)) := by
      rw [hres, maybeEnhance_filter_smallIdx, hblock]
    have hlen3 : ((chunk_text split count eng text m dto true enableQ).filter
          (hasParentIdx pi)).length
        = (split (get_chunking_config (resolveDocType m dto)).small_chunk_size
            (calculate_adaptive_overlap
              (get_chunking_config (resolveDocType m dto)).small_chunk_size)
            pc).length := by
      have := congrArg List.length h1
      simpa [natsFrom_length] using this
    rw [h1, hlen3, ← natsFrom_zero]

/-- C1 witness: a splitter that always returns two spans, on an
unclassified document type with the default configuration. -/
theorem C1_hierarchy_parent_links_inst :
    (∀ c ∈ chunk_text (fun _ _ t => [t, t]) String.length engNone "ab" [] (some "zz")
        true false,
      ∃ pi pc, c.metadata.get? "parent_chunk_index" = some (Value.nat pi)
        ∧ ((fun (_ _ : Nat) (t : String) => [t, t])
            (get_chunking_config (resolveDocType [] (some "zz"))).chunk_size_tokens
            (get_chunking_config (resolveDocType [] (some "zz"))).chunk_overlap_tokens
            "ab")[pi]? = some pc
        ∧ c.metadata.get? "parent_text" = some (Value.str pc))
    ∧ (∀ pi pc,
        ((fun (_ _ : Nat) (t : String) => [t, t])
          (get_chunking_config (resolveDocType [] (some "zz"))).chunk_size_tokens
          (get_chunking_config (resolveDocType [] (some "zz"))).chunk_overlap_tokens
          "ab")[pi]? = some pc →
        ((chunk_text (fun _ _ t => [t, t]) String.length engNone "ab" [] (some "zz")
            true false).filter (hasParentIdx pi)).map smallIdxOf
          = (List.range ((chunk_text (fun _ _ t => [t, t]) String.length engNone "ab" []
                (some "zz") true false).filter (hasParentIdx pi)).length).map
              (fun n => some (Value.nat n))) :=
  C1_hierarchy_parent_links (fun _ _ t => [t, t]) String.length engNone "ab" [] (some "zz")
    false (by decide) (by decide) (by decide)

theorem prependContext_nonempty (ctx r : String) (hc : ctx ≠ "") (hr : strStrip r ≠ "") :
    prependContext ctx r = ctx ++ "\n\n" ++ strStrip r := by
  simp [prependContext, hr, hc]

/-- C9: every emitted chunk's recorded `token_count` is the token count of
the raw span the splitter produced, taken before stripping and before the
context prefix is prepended; the emitted text is `prependContext` of that
raw span, which for a non-empty context label and a non-whitespace span
is the label, a blank line, and the stripped span — so whenever the
counter assigns the prefixed text a different count, the recorded
`token_count` is not the token count of the emitted text. -/
theorem C9_token_count_raw (split : Nat → Nat → String → List String)
    (count : String → Nat) (eng : ReEngine) (text : String) (m : Metadata)
    (dto : Option String) (es enableQ : Bool) :
    ∀ c ∈ chunk_text split count eng text m dto es enableQ,
      ∃ r, c.metadata.get? "token_count" = some (Value.nat (count r))
        ∧ c.text = prependContext (build_context_label m (resolveDocType m dto)) r
        ∧ (build_context_label m (resolveDocType m dto) ≠ "" → strStrip r ≠ "" →
            c.text = build_context_label m (resolveDocType m dto) ++ "\n\n" ++ strStrip r)
        ∧ (count (prependContext (build_context_label m (resolveDocType m dto)) r)
              ≠ count r →
            c.metadata.get? "token_count" ≠ some (Value.nat (count c.text))) := by
  intro c hc
  by_cases hp : (get_chunking_config (resolveDocType m dto)).one_per_control = true
      ∧ count text ≤ (get_chunking_config (resolveDocType m dto)).chunk_size_tokens
  · rw [chunk_text_single_eq split count eng text m dto es enableQ hp.1 hp.2] at hc
    rcases maybeEnhance_mem _ _ _ _ c hc with ⟨c0, hc0, hcc⟩
    rw [List.mem_singleton] at hc0
    refine ⟨text, ?_, ?_, ?_, ?_⟩
    · rw [hcc, enhanced_get?_plain _ _ _ _ _ (by decide) (by decide) (by decide), hc0,
        singleChunk_token_count]
    · rw [hcc, enhanced_text_plain, hc0, singleChunk_text]
    · intro hctx hstr
      rw [hcc, enhanced_text_plain, hc0, singleChunk_text,
        prependContext_nonempty _ _ hctx hstr]
    · intro hne
      rw [hcc, enhanced_get?_plain _ _ _ _ _ (by decide) (by decide) (by decide),
        enhanced_text_plain, hc0, singleChunk_token_count, singleChunk_text]
      simp only [ne_eq, Option.some.injEq, Value.nat.injEq]
      exact fun hcontra => hne hcontra.symm
  · by_cases hh : ((get_chunking_config (resolveDocType m dto)).use_small2big && es) = true
        ∧ 1 < (split (get_chunking_config (resolveDocType m dto)).chunk_size_tokens
            (get_chunking_config (resolveDocType m dto)).chunk_overlap_tokens text).length
    · rw [chunk_text_hier_eq split count eng text m dto es enableQ hp hh] at hc
      rcases maybeEnhance_mem _ _ _ _ c hc with ⟨c0, hc0, hcc⟩
      rw [small2bigOuter_eq, List.nil_append] at hc0
      rcases outerSpec_mem _ _ _ _ _ _ _ 0 0 c0 hc0 with ⟨j, pc, cidx2, si, sc, _, _, hmk⟩
      refine ⟨sc, ?_, ?_, ?_, ?_⟩
      · rw [hcc, enhanced_get?_plain _ _ _ _ _ (by decide) (by decide) (by decide), hmk,
          mkSmall_token_count]
      · rw [hcc, enhanced_text_plain, hmk, mkSmall_text]
      · intro hctx hstr
        rw [hcc, enhanced_text_plain, hmk, mkSmall_text,
          prependContext_nonempty _ _ hctx hstr]
      · intro hne
        rw [hcc, enhanced_get?_plain _ _ _ _ _ (by decide) (by decide) (by decide),
          enhanced_text_plain, hmk, mkSmall_token_count, mkSmall_text]
        simp only [ne_eq, Option.some.injEq, Value.nat.injEq]
        exact fun hcontra => hne hcontra.symm
    · rw [chunk_text_direct_eq split count eng text m dto es enableQ hp hh] at hc
      rcases maybeEnhance_mem _ _ _ _ c hc with ⟨c0, hc0, hcc⟩
      rcases directChunks_mem _ _ _ _ 0 c0 hc0 with ⟨idx2, ch, _, hmk⟩
      refine ⟨ch, ?_, ?_, ?_, ?_⟩
      · rw [hcc, enhanced_get?_plain _ _ _ _ _ (by decide) (by decide) (by decide), hmk,
          mkDirect_token_count]
      · rw [hcc, enhanced_text_plain, hmk, mkDirect_text]
      · intro hctx hstr
        rw [hcc, enhanced_text_plain, hmk, mkDirect_text,
          prependContext_nonempty _ _ hctx hstr]
      · intro hne
        rw [hcc, enhanced_get?_plain _ _ _ _ _ (by decide) (by decide) (by decide),
          enhanced_text_plain, hmk, mkDirect_token_count, mkDirect_text]
        simp only [ne_eq, Option.some.injEq, Value.nat.injEq]
        exact fun hcontra => hne hcontra.symm

/-- C9 witness: the single direct chunk of a `default`-typed document,
whose emitted text is the label `Source Document`, a blank line and the
stripped text `hi`, while `token_count` is the count of the raw span. -/
theorem C9_token_count_raw_inst :
    ∃ r, (Chunk.metadata
        ⟨"Source Document\n\nhi",
         [("document_type", Value.str "default"),
          ("context_prefix", Value.str "Source Document"),
          ("chunk_index", Value.nat 0), ("is_small_chunk", Value.bool false),
          ("token_count", Value.nat 2)]⟩).get? "token_count"
        = some (Value.nat (String.length r))
      ∧ (Chunk.text
          ⟨"Source Document\n\nhi",
           [("document_type", Value.str "default"),
            ("context_prefix", Value.str "Source Document"),
            ("chunk_index", Value.nat 0), ("is_small_chunk", Value.bool false),
            ("token_count", Value.nat 2)]⟩)
          = prependContext (build_context_label [] (resolveDocType [] (some "default"))) r
      ∧ (build_context_label [] (resolveDocType [] (some "default")) ≠ "" →
          strStrip r ≠ "" →
          (Chunk.text
            ⟨"Source Document\n\nhi",
             [("document_type", Value.str "default"),
              ("context_prefix", Value.str "Source Document"),
              ("chunk_index", Value.nat 0), ("is_small_chunk", Value.bool false),
              ("token_count", Value.nat 2)]⟩)
            = build_context_label [] (resolveDocType [] (some "default")) ++ "\n\n"
              ++ strStrip r)
      ∧ (String.length
            (prependContext (build_context_label [] (resolveDocType [] (some "default"))) r)
            ≠ String.length r →
          (Chunk.metadata
            ⟨"Source Document\n\nhi",
             [("document_type", Value.str "default"),
              ("context_prefix", Value.str "Source Document"),
              ("chunk_index", Value.nat 0), ("is_small_chunk", Value.bool false),
              ("token_count", Value.nat 2)]⟩).get? "token_count"
            ≠ some (Value.nat (String.length
                (Chunk.text
                  ⟨"Source Document\n\nhi",
                   [("document_type", Value.str "default"),
                    ("context_prefix", Value.str "Source Document"),
                    ("chunk_index", Value.nat 0), ("is_small_chunk", Value.bool false),
                    ("token_count", Value.nat 2)]⟩)))) :=
  C9_token_count_raw (fun _ _ t => [t]) String.length engNone "hi" [] (some "default")
    false false
    ⟨"Source Document\n\nhi",
     [("document_type", Value.str "default"),
      ("context_prefix", Value.str "Source Document"),
      ("chunk_index", Value.nat 0), ("is_small_chunk", Value.bool false),
      ("token_count", Value.nat 2)]⟩
    (by decide)
